import Mathlib

/-!
Shallow embedding of the KCLVM language-server core
(`kclvm/tools/src/LSP/src`): the two-phase find-references algorithm,
the event-loop state (shutdown lifecycle, request queue, responses),
the per-file analysis cache with snapshot isolation, the incrementally
maintained word index, and document-change application.
-/

namespace KclLsp

/-- `lsp_types::Position`: zero-based line / UTF-16 character. -/
structure Position where
  line : Nat
  character : Nat
deriving DecidableEq, Repr

/-- `lsp_types::Range`: start and end positions (`end` is a Lean keyword,
renamed `endPos`). -/
structure Range where
  start : Position
  endPos : Position
deriving DecidableEq, Repr

/-- `lsp_types::Location`: a file URI (modelled as a string) plus a range. -/
structure Location where
  uri : String
  range : Range
deriving DecidableEq, Repr

/-- `lsp_types::GotoDefinitionResponse`: `Scalar`, `Array` or `Link`. -/
inductive GotoDefinitionResponse where
  | scalar (loc : Location)
  | array (locs : List Location)
  | link
deriving DecidableEq, Repr

/-- `kclvm_error::Position` as produced by `kcl_pos(&file_path, pos)`:
the file name paired with the LSP position. -/
structure KclPos where
  filename : String
  pos : Position
deriving DecidableEq, Repr

/-- `kcl_pos` from `from_lsp`: pairs the file path with the position. -/
def kcl_pos (filename : String) (pos : Position) : KclPos :=
  ⟨filename, pos⟩

/-- The external collaborators consumed by `find_refs`
(`get_pkg_root`, `build_word_index`, `parse_param_and_compile`,
`goto_definition`, and the `logger` closure parameter), abstracted over
the opaque program/scope types. `compile` returns the
`(Program, ProgramScope)` pair on success (the diagnostics component is
unused by `find_refs` and omitted). `logger` is fallible, as in the
source (`Fn(String) -> Result<(), anyhow::Error>`). -/
structure RefEnv (Prog Scope : Type) where
  getPkgRoot : String → Option String
  buildWordIndex : String → Except Unit (String → Option (List Location))
  compile : String → Except Unit (Prog × Scope)
  gotoDefinition : Prog → KclPos → Scope → Option GotoDefinitionResponse
  logger : String → Except Unit Unit

variable {Prog Scope : Type}

/-- The verification-phase predicate of `find_refs` (`find_refs.rs` lines
39–66): recompile the candidate's file, run `goto_definition` at the
candidate's start position, and keep the candidate iff the result is a
`Scalar` location equal to `def_loc`. Compile failure, no definition, or
a non-scalar response all yield `false`. -/
def keepCandidate (env : RefEnv Prog Scope) (defLoc refLoc : Location) : Bool :=
  match env.compile refLoc.uri with
  | .ok (prog, scope) =>
    match env.gotoDefinition prog (kcl_pos refLoc.uri refLoc.range.start) scope with
    | some (GotoDefinitionResponse.scalar realDefLoc) => realDefLoc = defLoc
    | some _ => false
    | none => false
  | .error _ => false

/-- Whether the verification phase logs a compile failure for a candidate
(`find_refs.rs` lines 62–65): exactly when `parse_param_and_compile` on the
candidate's file fails. -/
def candidateCompileFails (env : RefEnv Prog Scope) (refLoc : Location) : Bool :=
  match env.compile refLoc.uri with
  | .ok _ => false
  | .error _ => true

/-- Observable outcome of one `find_refs` call: the messages sent to the
logging collaborator (in order), the list of files handed to the compiler
(one entry per candidate processed), and the returned value. -/
structure FindRefsOut where
  logs : List String
  compiled : List String
  result : Except Unit (Option (List Location))
deriving Repr

/-- `find_refs` (`find_refs.rs` lines 9–86). Resolve the package root of
the definition location's file; build the root's word index; look up the
identifier text; filter the candidate locations through the semantic
verification phase. Each candidate whose file fails to compile invokes
the logger once with `"{cursor_path} compilation failed"`, its result
discarded (`let _ = logger(...)`, line 63). A `build_word_index` failure
invokes the logger with `"build word index failed"` and propagates a
logger error with `?` (line 79) — `Ok(None)` only when that logging call
succeeds; a missing package root or a missing word-index entry yields
`Ok(None)` with nothing logged and nothing compiled. `logs` records the
messages passed to the logging collaborator, in order. -/
def find_refs (env : RefEnv Prog Scope) (defLoc : Location) (name : String)
    (cursorPath : String) : FindRefsOut :=
  match env.getPkgRoot defLoc.uri with
  | none => ⟨[], [], .ok none⟩
  | some root =>
    match env.buildWordIndex root with
    | .error _ =>
      match env.logger "build word index failed" with
      | .ok _ => ⟨["build word index failed"], [], .ok none⟩
      | .error e => ⟨["build word index failed"], [], .error e⟩
    | .ok wordIndex =>
      match wordIndex name with
      | none => ⟨[], [], .ok none⟩
      | some locs =>
        ⟨(locs.filter (fun l => candidateCompileFails env l)).map
            (fun _ => cursorPath ++ " compilation failed"),
         locs.map (fun l => l.uri),
         .ok (some (locs.filter (fun l => keepCandidate env defLoc l)))⟩

/-! ## Server state: analysis cache, snapshot, request queue, event loop
(`state.rs`, `request.rs`). -/

/-- `db.rs`: `AnalysisDatabase` holds the compiled program, resolved scope
and diagnostics of one file, with the shape fixed by its construction site
`AnalysisDatabase { prog, scope, diags }` in `state.rs`. The program,
scope and diagnostic types are abstract parameters. -/
structure AnalysisDatabase (Prog Scope Diag : Type) where
  prog : Prog
  scope : Scope
  diags : List Diag
deriving Repr

/-- Modelled from the spec: `analysis.rs` (the `Analysis` store with its
`set_db`) is not part of the excerpt. §4.2 specifies the cache contract
`get(identity) -> Option<AnalysisEntry>` / `set(identity, entry)`, and the
use site `self.analysis.set_db(file.file_id, AnalysisDatabase {..})` in
`state.rs` fixes `set_db` as insert-or-replace keyed by `FileId`
(modelled as `Nat`). -/
def set_db {Prog Scope Diag : Type}
    (db : Nat → Option (AnalysisDatabase Prog Scope Diag)) (fileId : Nat)
    (entry : AnalysisDatabase Prog Scope Diag) :
    Nat → Option (AnalysisDatabase Prog Scope Diag) :=
  fun i => if i = fileId then some entry else db i

/-- `lsp_server::Response`: a request id plus an optional error
(code, message); `error = none` is a success response. -/
structure Response where
  id : Nat
  error : Option (Int × String)
deriving DecidableEq, Repr

/-- `lsp_server::ErrorCode::InvalidRequest as i32`. -/
def invalidRequestCode : Int := -32600

/-- Inbound `lsp_server::Message`s (the `Response` arm is commented out in
`handle_event`, so only requests and notifications occur). Payloads other
than the request id and the method name are irrelevant to the claims. -/
inductive LspMessage where
  | request (id : Nat) (method : String)
  | notification (method : String)
deriving DecidableEq, Repr

/-- `state.rs` `Task`: results sent back from background work. -/
inductive Task where
  | response (r : Response)
  | notify (message : String)
deriving DecidableEq, Repr

/-- `state.rs` `Event`: a task-channel item or a transport message. -/
inductive Event where
  | task (t : Task)
  | lsp (m : LspMessage)
deriving DecidableEq, Repr

/-- `LanguageServerState` (`state.rs`), restricted to the observable parts
the claims speak about. `requestQueue` models `request_queue.incoming`
(`lsp_server::ReqQueue`, a hash map from request id to data; the data is
the method name — the receipt `Instant` is dropped). `sentResponses` and
`logs` record the messages pushed to the client channel (responses, and
log/notification payloads respectively). `dispatched` and `notifHandled`
are traces of which requests/notifications reached a typed handler.
`pendingVfsChanges` models the set of changed files the VFS hands over via
`take_changes`. -/
structure LanguageServerState (Prog Scope Diag : Type) where
  shutdownRequested : Bool
  requestQueue : Nat → Option String
  sentResponses : List Response
  logs : List String
  dispatched : List (Nat × String)
  notifHandled : List String
  db : Nat → Option (AnalysisDatabase Prog Scope Diag)
  openedFiles : List Nat
  wordIndex : String → Option (List Location)
  pendingVfsChanges : List Nat

/-- `LanguageServerSnapshot` (`state.rs`): the cloned view handed to
background work. The shared `vfs` handle is reference-shared, not cloned,
and is omitted; `db`, `opened_files` and `word_index` are clones. -/
structure LanguageServerSnapshot (Prog Scope Diag : Type) where
  db : Nat → Option (AnalysisDatabase Prog Scope Diag)
  openedFiles : List Nat
  wordIndex : String → Option (List Location)

variable {Diag : Type}

/-- `LanguageServerState::snapshot` (`state.rs` lines 249–256): clone the
analysis-cache map, the open-file set and the word index. -/
def snapshot (s : LanguageServerState Prog Scope Diag) :
    LanguageServerSnapshot Prog Scope Diag :=
  ⟨s.db, s.openedFiles, s.wordIndex⟩

/-- External collaborators used by `process_vfs_changes`: `get_file_name`
and `parse_param_and_compile` (the latter produces the `AnalysisDatabase`
fields on success). -/
structure VfsEnv (Prog Scope Diag : Type) where
  getFileName : Nat → Except Unit String
  compile : String → Except Unit (AnalysisDatabase Prog Scope Diag)

/-- One iteration of the `for file in changed_files` loop of
`process_vfs_changes` (`state.rs` lines 180–203), acting on the pair
(analysis-cache map, log messages emitted so far): resolve the file name,
recompile; on success `set_db`, on compile failure log
`"{filename} compilation failed"`, on a missing file name log
`"{file_id} not found"` and continue. -/
def processOneChange (env : VfsEnv Prog Scope Diag)
    (acc : (Nat → Option (AnalysisDatabase Prog Scope Diag)) × List String)
    (fileId : Nat) :
    (Nat → Option (AnalysisDatabase Prog Scope Diag)) × List String :=
  match env.getFileName fileId with
  | .ok filename =>
    match env.compile filename with
    | .ok entry => (set_db acc.1 fileId entry, acc.2)
    | .error _ => (acc.1, acc.2 ++ [filename ++ " compilation failed"])
  | .error _ => (acc.1, acc.2 ++ [toString fileId ++ " not found"])

/-- `process_vfs_changes` (`state.rs` lines 169–205): drain the VFS change
queue; if empty return `false`, otherwise process every changed file in
order and return `true`. -/
def process_vfs_changes (env : VfsEnv Prog Scope Diag)
    (s : LanguageServerState Prog Scope Diag) :
    LanguageServerState Prog Scope Diag × Bool :=
  if s.pendingVfsChanges.isEmpty then (s, false)
  else
    let r := s.pendingVfsChanges.foldl (processOneChange env) (s.db, [])
    ({ s with db := r.1, logs := s.logs ++ r.2, pendingVfsChanges := [] }, true)

/-- `LanguageServerState::respond` (`state.rs` lines 221–227): complete the
response's id against the incoming request queue; only if the id was still
registered is the response sent, and completing removes the id. -/
def respond (s : LanguageServerState Prog Scope Diag) (resp : Response) :
    LanguageServerState Prog Scope Diag :=
  match s.requestQueue resp.id with
  | some _ =>
    { s with
      requestQueue := fun i => if i = resp.id then none else s.requestQueue i,
      sentResponses := s.sentResponses ++ [resp] }
  | none => s

/-- `LanguageServerState::register_request` (`state.rs` lines 238–247):
insert the request id with its method into the incoming queue. -/
def register_request (s : LanguageServerState Prog Scope Diag) (id : Nat)
    (method : String) : LanguageServerState Prog Scope Diag :=
  { s with requestQueue := fun i => if i = id then some method else s.requestQueue i }

/-- `on_request` (`request.rs` lines 22–58): log, register the request,
then — if a shutdown was requested earlier — immediately respond with an
`InvalidRequest` error and skip dispatch. Otherwise dispatch to the typed
handlers: the `Shutdown` request's synchronous handler sets the flag; all
dispatched requests are recorded in the `dispatched` trace. -/
def on_request (s : LanguageServerState Prog Scope Diag) (id : Nat)
    (method : String) : LanguageServerState Prog Scope Diag :=
  let s1 := register_request
    { s with logs := s.logs ++ ["on request " ++ method] } id method
  if s1.shutdownRequested then
    respond s1 ⟨id, some (invalidRequestCode, "shutdown was requested")⟩
  else if method = "shutdown" then
    { s1 with
      shutdownRequested := true
      dispatched := s1.dispatched ++ [(id, method)] }
  else
    { s1 with dispatched := s1.dispatched ++ [(id, method)] }

/-- `on_notification` (`notification.rs` lines 22–37): log, then dispatch
to the notification handlers; there is no shutdown check on this path. The
individual handlers' effects on the word index are modelled separately
(`word_index_*` below); here only the dispatch trace is recorded. -/
def on_notification (s : LanguageServerState Prog Scope Diag)
    (method : String) : LanguageServerState Prog Scope Diag :=
  { s with
    logs := s.logs ++ ["on notification " ++ method]
    notifHandled := s.notifHandled ++ [method] }

/-- `handle_task` (`state.rs` lines 209–217): forward a background
notification to the client, or route a background response through
`respond`. -/
def handle_task (s : LanguageServerState Prog Scope Diag) :
    Task → LanguageServerState Prog Scope Diag
  | .notify msg => { s with logs := s.logs ++ [msg] }
  | .response r => respond s r

/-- Step 1 of `handle_event` (`state.rs` lines 140–148): route the event
to `handle_task`, `on_request` or `on_notification`. -/
def dispatchEvent (s : LanguageServerState Prog Scope Diag) :
    Event → LanguageServerState Prog Scope Diag
  | .task t => handle_task s t
  | .lsp (.request id method) => on_request s id method
  | .lsp (.notification m) => on_notification s m

/-- `handle_event` (`state.rs` lines 137–164): process the event, then
process VFS changes; if anything changed, take a snapshot and spawn the
diagnostics job on it (the spawned snapshots are recorded as a trace). -/
def handle_event (env : VfsEnv Prog Scope Diag)
    (s : LanguageServerState Prog Scope Diag) (e : Event) :
    LanguageServerState Prog Scope Diag ×
      List (LanguageServerSnapshot Prog Scope Diag) :=
  let pr := process_vfs_changes env (dispatchEvent s e)
  if pr.2 then (pr.1, [snapshot pr.1]) else (pr.1, [])

/-- `run` (`state.rs` lines 124–134) over a finite event stream: an `exit`
notification returns immediately — before `handle_event`, regardless of
pending events — with the unprocessed suffix; otherwise each event is
handled in order. -/
def run (env : VfsEnv Prog Scope Diag)
    (s : LanguageServerState Prog Scope Diag) :
    List Event → LanguageServerState Prog Scope Diag × List Event
  | [] => (s, [])
  | e :: rest =>
    match e with
    | .lsp (.notification m) =>
      if m = "exit" then (s, rest)
      else run env (handle_event env s (.lsp (.notification m))).1 rest
    | _ => run env (handle_event env s e).1 rest

/-! ## Word index (`util.rs` fragment builders and the incremental
delta operations; the callers live in `notification.rs`). -/

/-- Modelled from the spec: `util.rs` (`build_word_index_for_file_content`,
`word_index_add`, `word_index_subtract`) is not part of the excerpt. §3
defines the word index as occurrences of identifier text and §9 directs
"implement as a multiset difference/union over (text, location) triples",
so a root's index is a multiset of (text, location) triples; the
per-file fragment builder (the tokenizer) is an abstract parameter. -/
abbrev WordIndexDelta := Multiset (String × Location)

/-- Modelled from the spec: `word_index_add` — add the fragment's entries
(multiset union, §9). -/
def word_index_add (wi delta : WordIndexDelta) : WordIndexDelta := wi + delta

/-- Modelled from the spec: `word_index_subtract` — subtract the
fragment's entries (multiset difference, §9). -/
def word_index_subtract (wi delta : WordIndexDelta) : WordIndexDelta := wi - delta

/-- Modelled from the spec: rebuilding a root's index from scratch (§4.3
"full scan: enumerate all source files under the root, tokenize
identifiers, record (text, file-URI, range) triples"): the sum of the
per-file fragments over the root's files. `frag content uri` is the
abstract per-file fragment builder, `contents` the current content of
each file. -/
def build_word_index_root (frag : String → String → WordIndexDelta)
    (files : List String) (contents : String → String) : WordIndexDelta :=
  (files.map (fun u => frag (contents u) u)).sum

/-- One incremental update as performed by `on_did_change_text_document`
(`notification.rs` lines 97–108): build the fragment for the file's old
content and for its new content, subtract the old and add the new, and
record the new content. -/
def incremental_edit (frag : String → String → WordIndexDelta)
    (st : WordIndexDelta × (String → String)) (edit : String × String) :
    WordIndexDelta × (String → String) :=
  (word_index_add
      (word_index_subtract st.1 (frag (st.2 edit.1) edit.1))
      (frag edit.2 edit.1),
    fun u => if u = edit.1 then edit.2 else st.2 u)

/-- The final contents after applying an edit sequence. -/
def apply_edits (contents : String → String) (edits : List (String × String)) :
    String → String :=
  edits.foldl (fun c e => fun u => if u = e.1 then e.2 else c u) contents

/-! ## Word-index rename handling (`on_did_rename_files`,
`notification.rs` lines 159–182). For the rename/lookup claims the index
is used through its query interface, identifier text → locations. -/

/-- Modelled from the spec: the per-location rewrite done by
`word_index_url_update` (§4.3 "rewrite every location's URI from F to F′
in place; ranges are preserved"). -/
def renameLoc (oldUri newUri : String) (l : Location) : Location :=
  if l.uri = oldUri then { l with uri := newUri } else l

/-- Modelled from the spec: `util.rs`'s `word_index_url_update` — rewrite
every location's URI from `oldUri` to `newUri` in place, for every
identifier. -/
def word_index_url_update (wi : String → List Location)
    (oldUri newUri : String) : String → List Location :=
  fun w => (wi w).map (renameLoc oldUri newUri)

/-- `Path::starts_with`, modelled as character-level prefix test (the
paths the claims use have clean component boundaries). -/
def pathStartsWith (root path : String) : Bool :=
  root.data.isPrefixOf path.data

/-- `on_did_rename_files` (`notification.rs` lines 159–182), one renamed
file: for every (workspace folder, index) pair in the word-index map,
apply `word_index_url_update` iff the old path starts with the folder
path. -/
def on_did_rename_files (m : List (String × (String → List Location)))
    (oldUri newUri : String) : List (String × (String → List Location)) :=
  m.map (fun p =>
    if pathStartsWith p.1 oldUri then (p.1, word_index_url_update p.2 oldUri newUri)
    else p)

/-! ## Document-change application (`util.rs`'s `apply_document_changes`,
exercised by `test_apply_document_changes` in `tests.rs`). -/

/-- UTF-16 code-unit length of a character (§6: positions are in UTF-16
code units). -/
def utf16Len (c : Char) : Nat := if c.toNat < 0x10000 then 1 else 2

/-- Character offset of an LSP (line, UTF-16 character) position in a
text: skip `line` newline characters, then advance consuming `character`
UTF-16 units, stopping at the end of the line. -/
def offsetOfPos : List Char → Nat → Nat → Nat
  | [], _, _ => 0
  | c :: cs, 0, ch =>
    if ch = 0 then 0
    else if c = '\n' then 0
    else 1 + offsetOfPos cs 0 (ch - utf16Len c)
  | c :: cs, l + 1, ch =>
    1 + offsetOfPos cs (if c = '\n' then l else l + 1) ch

/-- `lsp_types::TextDocumentContentChangeEvent` (the unused
`range_length` field is dropped): an optional range plus replacement
text; `range = none` means "replace the entire document" (§6). -/
structure TextDocumentContentChangeEvent where
  range : Option Range
  text : String
deriving DecidableEq, Repr

/-- Apply a single content change to a text: a range-less change replaces
the whole document; a ranged change splices the replacement text over the
range, resolved against the current text. -/
def applyChange (text : List Char) (change : TextDocumentContentChangeEvent) :
    List Char :=
  match change.range with
  | none => change.text.data
  | some r =>
    let s := offsetOfPos text r.start.line r.start.character
    let e := offsetOfPos text r.endPos.line r.endPos.character
    text.take s ++ change.text.data ++ text.drop e

/-- Modelled from the spec: `util.rs`'s `apply_document_changes` — §6
"edits must be applied in the order received, and a range-less edit means
replace entire document", with each edit's range resolved against the
text produced by the preceding edits (as `test_apply_document_changes`
exercises). -/
def apply_document_changes (text : String)
    (changes : List TextDocumentContentChangeEvent) : String :=
  ⟨changes.foldl applyChange text.data⟩

/-- A concrete server state with one pending request (id 1). -/
def stateW : LanguageServerState Unit Unit Unit :=
  { shutdownRequested := false
    requestQueue := fun i => if i = 1 then some "textDocument/hover" else none
    sentResponses := []
    logs := []
    dispatched := []
    notifHandled := []
    db := fun _ => none
    openedFiles := []
    wordIndex := fun _ => none
    pendingVfsChanges := [] }

/-- The analysis-cache map type: FileId to optional entry. -/
abbrev DbMap (Prog Scope Diag : Type) :=
  Nat → Option (AnalysisDatabase Prog Scope Diag)

/-- The outcome of processing one changed file: `some entry` when name
resolution and recompilation both succeed (then `set_db` replaces the
entry), `none` otherwise (the cache is untouched). -/
def changeOutcome {Prog Scope Diag : Type} (env : VfsEnv Prog Scope Diag)
    (y : Nat) : Option (AnalysisDatabase Prog Scope Diag) :=
  match env.getFileName y with
  | .ok fn =>
    match env.compile fn with
    | .ok entry => some entry
    | .error _ => none
  | .error _ => none

/-- A definition location in a small concrete project. -/
def defLocW : Location := ⟨"/root/main.k", ⟨⟨0, 0⟩, ⟨0, 1⟩⟩⟩

/-- A concrete collaborator environment in which the identifier `a` has a
single occurrence — the definition itself — and `goto_definition` resolves
it back to `defLocW`. -/
def refEnvW : RefEnv Unit Unit :=
  { getPkgRoot := fun _ => some "/root"
    buildWordIndex := fun _ =>
      .ok (fun w => if w = "a" then some [defLocW] else none)
    compile := fun _ => .ok ((), ())
    gotoDefinition := fun _ _ _ => some (.scalar defLocW)
    logger := fun _ => .ok () }

/-- A VFS environment in which file id 1 resolves to `bad.k` (which fails
to compile) and every other id resolves to `good.k` (which compiles). -/
def vfsEnvW : VfsEnv Unit Unit Unit :=
  { getFileName := fun i => if i = 1 then .ok "bad.k" else .ok "good.k"
    compile := fun fn =>
      if fn = "bad.k" then .error () else .ok ⟨(), (), []⟩ }

/-- A server state with a cached entry for file 1 and changes pending for
files 1 and 2. -/
def stateVfsW : LanguageServerState Unit Unit Unit :=
  { stateW with
      db := fun i => if i = 1 then some ⟨(), (), []⟩ else none
      pendingVfsChanges := [1, 2] }

/-- The definition location of the C6 counterexample project. -/
def defLocC6 : Location := ⟨"/r/def.k", ⟨⟨0, 0⟩, ⟨0, 1⟩⟩⟩

/-- First candidate occurrence, in the failing file `/r/bad.k`. -/
def candC6a : Location := ⟨"/r/bad.k", ⟨⟨1, 0⟩, ⟨1, 1⟩⟩⟩

/-- Second candidate occurrence, in the same failing file `/r/bad.k`. -/
def candC6b : Location := ⟨"/r/bad.k", ⟨⟨2, 0⟩, ⟨2, 1⟩⟩⟩

/-- A collaborator environment in which the identifier `x` has two
candidate occurrences, both inside the single file `/r/bad.k`, whose
compilation fails; every other file compiles. -/
def refEnvC6 : RefEnv Unit Unit :=
  { getPkgRoot := fun _ => some "/r"
    buildWordIndex := fun _ =>
      .ok (fun w => if w = "x" then some [candC6a, candC6b] else none)
    compile := fun p => if p = "/r/bad.k" then .error () else .ok ((), ())
    gotoDefinition := fun _ _ _ => some (.scalar defLocC6)
    logger := fun _ => .ok () }

/-- A one-token-per-file fragment builder used for concrete checks. -/
def fragW : String → String → WordIndexDelta :=
  fun content uri => {(content, ⟨uri, ⟨⟨0, 0⟩, ⟨0, 0⟩⟩⟩)}

/-- A word-index occurrence of identifier `a` in file `/r/f.k`. -/
def locC8 : Location := ⟨"/r/f.k", ⟨⟨3, 0⟩, ⟨3, 5⟩⟩⟩

/-- A one-identifier word index over `/r/f.k`. -/
def wiC8 : String → List Location := fun w => if w = "a" then [locC8] else []

/-- A VFS environment in which every lookup fails (no files change). -/
def vfsEnvFail : VfsEnv Unit Unit Unit :=
  ⟨fun _ => .error (), fun _ => .error ()⟩

/-- A collaborator environment whose package-root lookup always fails. -/
def refEnvNone : RefEnv Unit Unit :=
  ⟨fun _ => none, fun _ => .error (), fun _ => .error (), fun _ _ _ => none,
    fun _ => .ok ()⟩

/-- A collaborator environment in which the word-index build fails and the
logging collaborator itself fails (for example, a dead client channel). -/
def refEnvLogFail : RefEnv Unit Unit :=
  ⟨fun _ => some "/r", fun _ => .error (), fun _ => .error (),
    fun _ _ _ => none, fun _ => .error ()⟩

/-! ## Theorems -/

/-- C7: applying an empty change list leaves any text unchanged; a change
event carrying no range replaces the entire document, discarding the
effect of all prior range-based changes in the same batch; applying to
"the" an insertion of " quick" at line 0 character 3 yields "the quick",
and subsequently deleting characters 0–4 and inserting " foxes" at
character 5 yields "quick foxes". -/
theorem apply_document_changes_spec :
    (∀ t : String, apply_document_changes t [] = t) ∧
    (∀ (t s : String) (cs cs' : List TextDocumentContentChangeEvent),
      apply_document_changes t (cs ++ ⟨none, s⟩ :: cs') =
        apply_document_changes s cs') ∧
    apply_document_changes "the"
      [⟨some ⟨⟨0, 3⟩, ⟨0, 3⟩⟩, " quick"⟩] = "the quick" ∧
    apply_document_changes "the quick"
      [⟨some ⟨⟨0, 0⟩, ⟨0, 4⟩⟩, ""⟩, ⟨some ⟨⟨0, 5⟩, ⟨0, 5⟩⟩, " foxes"⟩] =
      "quick foxes" := by
  refine ⟨fun t => rfl, fun t s cs cs' => ?_, by decide, by decide⟩
  simp [apply_document_changes, List.foldl_append, applyChange]

/-- C2: a snapshot taken by `LanguageServerState::snapshot` is a clone of
the analysis-cache map: for every file id it returns the entry present at
the moment the snapshot was taken (`(snapshot s).db f = s.db f`, a value
fixed by the pre-mutation state `s`), while a later `set_db` mutation is
real — it changes the live map, and only a snapshot taken after it sees
the new entry. -/
theorem snapshot_isolation {Prog Scope Diag : Type}
    (s : LanguageServerState Prog Scope Diag) (id : Nat)
    (entry : AnalysisDatabase Prog Scope Diag) :
    (∀ f, (snapshot s).db f = s.db f) ∧
    set_db s.db id entry id = some entry ∧
    (snapshot { s with db := set_db s.db id entry }).db id = some entry := by
  refine ⟨fun f => rfl, ?_, ?_⟩ <;> simp [snapshot, set_db]

/-- C10: `respond` sends a response only when its id is still registered
in the incoming request queue; completing removes the id, so a second
`respond` with the same id sends nothing, and a response with an unknown
id is dropped silently. -/
theorem respond_at_most_once {Prog Scope Diag : Type}
    (s : LanguageServerState Prog Scope Diag) (resp : Response) :
    (s.requestQueue resp.id = none → respond s resp = s) ∧
    ((∃ m, s.requestQueue resp.id = some m) →
      (respond s resp).sentResponses = s.sentResponses ++ [resp]) ∧
    (respond s resp).requestQueue resp.id = none ∧
    (respond (respond s resp) resp).sentResponses =
      (respond s resp).sentResponses := by
  cases h : s.requestQueue resp.id with
  | none => refine ⟨fun _ => by simp [respond, h], ?_, ?_, ?_⟩ <;>
      simp [respond, h]
  | some m =>
    refine ⟨by simp [h], fun _ => by simp [respond, h], ?_, ?_⟩ <;>
      simp [respond, h]

/-- Witness for C10: responding to the registered id 1 sends exactly one
response, and responding again with the same id sends nothing more. -/
theorem respond_at_most_once_witness :
    (respond stateW ⟨1, none⟩).sentResponses = [⟨1, none⟩] ∧
    (respond (respond stateW ⟨1, none⟩) ⟨1, none⟩).sentResponses =
      [⟨1, none⟩] := by
  have h := respond_at_most_once stateW ⟨1, none⟩
  have hsent := h.2.1 ⟨"textDocument/hover", by simp [stateW]⟩
  exact ⟨by simpa using hsent, by rw [h.2.2.2]; simpa using hsent⟩

/-- `respond` never touches the shutdown flag. -/
theorem respond_shutdownRequested {Prog Scope Diag : Type}
    (s : LanguageServerState Prog Scope Diag) (resp : Response) :
    (respond s resp).shutdownRequested = s.shutdownRequested := by
  cases h : s.requestQueue resp.id <;> simp [respond, h]

/-- `process_vfs_changes` never touches the shutdown flag. -/
theorem process_vfs_changes_shutdownRequested {Prog Scope Diag : Type}
    (env : VfsEnv Prog Scope Diag) (s : LanguageServerState Prog Scope Diag) :
    ((process_vfs_changes env s).1).shutdownRequested = s.shutdownRequested := by
  unfold process_vfs_changes
  split <;> rfl

/-- Once set, the shutdown flag survives `on_request`. -/
theorem on_request_shutdown_of_true {Prog Scope Diag : Type}
    (s : LanguageServerState Prog Scope Diag) (id : Nat) (method : String)
    (h : s.shutdownRequested = true) :
    (on_request s id method).shutdownRequested = true := by
  unfold on_request register_request
  simp [h, respond_shutdownRequested]

/-- Once set, the shutdown flag survives event dispatch. -/
theorem dispatchEvent_shutdown_of_true {Prog Scope Diag : Type}
    (s : LanguageServerState Prog Scope Diag) (e : Event)
    (h : s.shutdownRequested = true) :
    (dispatchEvent s e).shutdownRequested = true := by
  cases e with
  | task t =>
    cases t with
    | notify m => simpa [dispatchEvent, handle_task] using h
    | response r => simp [dispatchEvent, handle_task, respond_shutdownRequested, h]
  | lsp m =>
    cases m with
    | request id method => exact on_request_shutdown_of_true _ id method h
    | notification m => simpa [dispatchEvent, on_notification] using h

/-- C5: once the shutdown flag is set, every subsequent request gets an
immediate `InvalidRequest` error response and is not dispatched to any
handler; notifications are still dispatched; no event clears the flag
(there is no transition back to `Running`); and an `exit` notification
makes the run loop return at once, leaving the remaining events
unprocessed and the state untouched. -/
theorem shutdown_lifecycle {Prog Scope Diag : Type}
    (env : VfsEnv Prog Scope Diag) (s : LanguageServerState Prog Scope Diag)
    (id : Nat) (method : String) (e : Event) (rest : List Event)
    (h : s.shutdownRequested = true) :
    ((on_request s id method).dispatched = s.dispatched ∧
     (on_request s id method).shutdownRequested = true ∧
     (on_request s id method).sentResponses = s.sentResponses ++
       [⟨id, some (invalidRequestCode, "shutdown was requested")⟩]) ∧
    (on_notification s method).notifHandled = s.notifHandled ++ [method] ∧
    (handle_event env s e).1.shutdownRequested = true ∧
    run env s (Event.lsp (.notification "exit") :: rest) = (s, rest) := by
  refine ⟨⟨?_, ?_, ?_⟩, by simp [on_notification], ?_, by simp [run]⟩
  · simp [on_request, register_request, respond, h]
  · exact on_request_shutdown_of_true s id method h
  · simp [on_request, register_request, respond, h]
  · have h1 := dispatchEvent_shutdown_of_true s e h
    unfold handle_event
    by_cases hc : (process_vfs_changes env (dispatchEvent s e)).2 = true <;>
      simp [hc, process_vfs_changes_shutdownRequested, h1]

/-- Witness for C5 at a concrete shut-down state: the request is answered
with the `InvalidRequest` error and nothing is dispatched, and the loop
stops at `exit`. -/
theorem shutdown_lifecycle_witness :
    (on_request { stateW with shutdownRequested := true } 7 "textDocument/hover").dispatched = [] ∧
    (on_request { stateW with shutdownRequested := true } 7 "textDocument/hover").sentResponses =
      [⟨7, some (invalidRequestCode, "shutdown was requested")⟩] ∧
    run vfsEnvFail { stateW with shutdownRequested := true }
      [Event.lsp (.notification "exit"), Event.lsp (.request 9 "shutdown")] =
      ({ stateW with shutdownRequested := true },
        [Event.lsp (.request 9 "shutdown")]) := by
  have h := shutdown_lifecycle vfsEnvFail
    { stateW with shutdownRequested := true } 7 "textDocument/hover"
    (Event.lsp (.notification "exit")) [Event.lsp (.request 9 "shutdown")] rfl
  exact ⟨by rw [h.1.1]; simp [stateW], by rw [h.1.2.2]; simp [stateW], h.2.2.2⟩

/-- The cache after one loop iteration, characterized by `changeOutcome`. -/
theorem processOneChange_fst {Prog Scope Diag : Type}
    (env : VfsEnv Prog Scope Diag)
    (acc : DbMap Prog Scope Diag × List String) (y : Nat) :
    (processOneChange env acc y).1 =
      match changeOutcome env y with
      | some entry => set_db acc.1 y entry
      | none => acc.1 := by
  cases h : env.getFileName y with
  | ok fn =>
    cases hc : env.compile fn with
    | ok entry => simp [processOneChange, changeOutcome, h, hc]
    | error e => simp [processOneChange, changeOutcome, h, hc]
  | error e => simp [processOneChange, changeOutcome, h]

/-- One loop iteration only appends to the log. -/
theorem processOneChange_logs_mono {Prog Scope Diag : Type}
    (env : VfsEnv Prog Scope Diag)
    (acc : DbMap Prog Scope Diag × List String) (y : Nat) (m : String)
    (h : m ∈ acc.2) : m ∈ (processOneChange env acc y).2 := by
  cases hn : env.getFileName y with
  | ok fn =>
    cases hc : env.compile fn with
    | ok entry => simp [processOneChange, hn, hc, h]
    | error e => simp [processOneChange, hn, hc, h]
  | error e => simp [processOneChange, hn, h]

/-- A file whose processing has no successful outcome never has its cache
entry changed by the loop. -/
theorem foldl_process_db_preserved {Prog Scope Diag : Type}
    (env : VfsEnv Prog Scope Diag) (x : Nat)
    (hx : changeOutcome env x = none) :
    ∀ (l : List Nat) (acc : DbMap Prog Scope Diag × List String),
      (l.foldl (processOneChange env) acc).1 x = acc.1 x := by
  intro l
  induction l with
  | nil => intro acc; rfl
  | cons y t ih =>
    intro acc
    rw [List.foldl_cons, ih]
    rw [processOneChange_fst]
    cases hy : changeOutcome env y with
    | none => rfl
    | some entry =>
      by_cases hxy : x = y
      · subst hxy; rw [hx] at hy; exact absurd hy (by simp)
      · simp [set_db, hxy]

/-- The loop never removes a cache entry. -/
theorem foldl_process_db_total {Prog Scope Diag : Type}
    (env : VfsEnv Prog Scope Diag) :
    ∀ (l : List Nat) (acc : DbMap Prog Scope Diag × List String) (i : Nat)
      (e : AnalysisDatabase Prog Scope Diag), acc.1 i = some e →
      ∃ e', (l.foldl (processOneChange env) acc).1 i = some e' := by
  intro l
  induction l with
  | nil => exact fun acc i e h => ⟨e, h⟩
  | cons y t ih =>
    intro acc i e h
    rw [List.foldl_cons]
    have step : ∃ e', (processOneChange env acc y).1 i = some e' := by
      rw [processOneChange_fst]
      cases hy : changeOutcome env y with
      | none => exact ⟨e, h⟩
      | some entry =>
        by_cases hiy : i = y
        · subst hiy; exact ⟨entry, by simp [set_db]⟩
        · exact ⟨e, by simp [set_db, hiy, h]⟩
    obtain ⟨e', he'⟩ := step
    exact ih _ i e' he'

/-- The loop only appends to the log. -/
theorem foldl_process_logs_mono {Prog Scope Diag : Type}
    (env : VfsEnv Prog Scope Diag) :
    ∀ (l : List Nat) (acc : DbMap Prog Scope Diag × List String) (m : String), m ∈ acc.2 →
      m ∈ (l.foldl (processOneChange env) acc).2 := by
  intro l
  induction l with
  | nil => exact fun acc m h => h
  | cons y t ih =>
    exact fun acc m h => ih _ m (processOneChange_logs_mono env acc y m h)

/-- The compile-failure message of each failing changed file appears in
the loop's log. -/
theorem foldl_process_log_of_failure {Prog Scope Diag : Type}
    (env : VfsEnv Prog Scope Diag) (x : Nat) (fn : String)
    (hname : env.getFileName x = .ok fn)
    (hfail : env.compile fn = .error ()) :
    ∀ (l : List Nat) (acc : DbMap Prog Scope Diag × List String), x ∈ l →
      (fn ++ " compilation failed") ∈
        (l.foldl (processOneChange env) acc).2 := by
  intro l
  induction l with
  | nil => intro acc h; exact absurd h (List.not_mem_nil x)
  | cons y t ih =>
    intro acc hmem
    rw [List.foldl_cons]
    rcases List.mem_cons.mp hmem with heq | hx
    · subst heq
      refine foldl_process_logs_mono env t _ _ ?_
      simp [processOneChange, hname, hfail]
    · exact ih _ hx

/-- A changed file that resolves and recompiles successfully ends up with
its new entry in the cache. -/
theorem foldl_process_db_success {Prog Scope Diag : Type}
    (env : VfsEnv Prog Scope Diag) (y : Nat)
    (ey : AnalysisDatabase Prog Scope Diag)
    (hy : changeOutcome env y = some ey) :
    ∀ (l : List Nat) (acc : DbMap Prog Scope Diag × List String),
      (y ∈ l ∨ acc.1 y = some ey) →
      (l.foldl (processOneChange env) acc).1 y = some ey := by
  intro l
  induction l with
  | nil =>
    intro acc h
    rcases h with h | h
    · exact absurd h (List.not_mem_nil y)
    · exact h
  | cons z t ih =>
    intro acc h
    rw [List.foldl_cons]
    apply ih
    rcases h with h | h
    · rcases List.mem_cons.mp h with heq | hmem
      · right
        subst heq
        rw [processOneChange_fst, hy]
        simp [set_db]
      · left; exact hmem
    · right
      rw [processOneChange_fst]
      cases hz : changeOutcome env z with
      | none => exact h
      | some ez =>
        by_cases hyz : y = z
        · subst hyz
          rw [hy] at hz
          injection hz with hh
          subst hh
          simp [set_db]
        · simpa [set_db, hyz] using h

/-- `process_vfs_changes` on a non-empty change set, in closed form. -/
theorem process_vfs_changes_eq {Prog Scope Diag : Type}
    (env : VfsEnv Prog Scope Diag) (s : LanguageServerState Prog Scope Diag)
    (h : s.pendingVfsChanges ≠ []) :
    process_vfs_changes env s =
      ({ s with
          db := (s.pendingVfsChanges.foldl (processOneChange env) (s.db, [])).1,
          logs := s.logs ++
            (s.pendingVfsChanges.foldl (processOneChange env) (s.db, [])).2,
          pendingVfsChanges := [] }, true) := by
  unfold process_vfs_changes
  rw [if_neg]
  simp [List.isEmpty_iff, h]

/-- C4: when `process_vfs_changes` handles a changed file whose
compilation fails, the file's previous cache entry (or its absence) is
left exactly as it was, the failure is logged as
`"{filename} compilation failed"`, the function still returns `true`
(the event loop continues), no cached entry is ever removed, and the
remaining changed files are still processed (a successfully recompiling
one gets its new entry). -/
theorem process_vfs_changes_compile_failure {Prog Scope Diag : Type}
    (env : VfsEnv Prog Scope Diag) (s : LanguageServerState Prog Scope Diag)
    (x : Nat) (fn : String)
    (hx : x ∈ s.pendingVfsChanges)
    (hname : env.getFileName x = .ok fn)
    (hfail : env.compile fn = .error ()) :
    (process_vfs_changes env s).1.db x = s.db x ∧
    (fn ++ " compilation failed") ∈ (process_vfs_changes env s).1.logs ∧
    (process_vfs_changes env s).2 = true ∧
    (∀ i e, s.db i = some e →
      ∃ e', (process_vfs_changes env s).1.db i = some e') ∧
    (∀ y ey, y ∈ s.pendingVfsChanges → changeOutcome env y = some ey →
      (process_vfs_changes env s).1.db y = some ey) := by
  have hne : s.pendingVfsChanges ≠ [] := List.ne_nil_of_mem hx
  have hxout : changeOutcome env x = none := by
    simp [changeOutcome, hname, hfail]
  rw [process_vfs_changes_eq env s hne]
  refine ⟨?_, ?_, rfl, ?_, ?_⟩
  · exact foldl_process_db_preserved env x hxout _ _
  · exact List.mem_append_right _
      (foldl_process_log_of_failure env x fn hname hfail _ _ hx)
  · exact fun i e h => foldl_process_db_total env _ _ i e h
  · exact fun y ey hmem hout =>
      foldl_process_db_success env y ey hout _ _ (Or.inl hmem)

/-- C1: find-references soundness — every location in a returned list has
a file that compiles and on which `goto_definition` at the location's
start position yields a single (`Scalar`) definition location equal to
the queried one (same URI, same range start and end); candidates failing
either check (no definition, a multiple-target result, a compile
failure) are excluded from the result without the call itself failing:
whenever the verification phase runs, the call returns `Ok(Some _)`. -/
theorem find_refs_soundness {Prog Scope : Type} (env : RefEnv Prog Scope)
    (defLoc : Location) (name cursorPath : String) :
    (∀ root wi cands, env.getPkgRoot defLoc.uri = some root →
      env.buildWordIndex root = .ok wi → wi name = some cands →
      ∃ locs,
        (find_refs env defLoc name cursorPath).result = .ok (some locs)) ∧
    (∀ locs, (find_refs env defLoc name cursorPath).result = .ok (some locs) →
      ∀ l ∈ locs, ∃ prog scope,
        env.compile l.uri = .ok (prog, scope) ∧
        env.gotoDefinition prog (kcl_pos l.uri l.range.start) scope =
          some (.scalar defLoc)) := by
  cases hr : env.getPkgRoot defLoc.uri with
  | none =>
    refine ⟨fun root wi cands h1 _ _ => by simp at h1, ?_⟩
    intro locs hl
    simp [find_refs, hr] at hl
  | some root =>
    cases hb : env.buildWordIndex root with
    | error e =>
      cases e
      refine ⟨fun root' wi cands h1 h2 _ => ?_, ?_⟩
      · rw [Option.some.injEq] at h1
        subst h1
        rw [hb] at h2
        exact absurd h2 (by simp)
      · intro locs hl
        cases hlog : env.logger "build word index failed" with
        | ok u => simp [find_refs, hr, hb, hlog] at hl
        | error e2 => simp [find_refs, hr, hb, hlog] at hl
    | ok wi =>
      cases hw : wi name with
      | none =>
        refine ⟨fun root' wi2 cands h1 h2 h3 => ?_, ?_⟩
        · rw [Option.some.injEq] at h1
          subst h1
          rw [hb, Except.ok.injEq] at h2
          subst h2
          rw [hw] at h3
          exact absurd h3 (by simp)
        · intro locs hl
          simp [find_refs, hr, hb, hw] at hl
      | some cands =>
        refine ⟨fun _ _ _ _ _ _ =>
          ⟨cands.filter (fun l => keepCandidate env defLoc l),
            by simp [find_refs, hr, hb, hw]⟩, ?_⟩
        intro locs hl l hm
        simp only [find_refs, hr, hb, hw, Except.ok.injEq,
          Option.some.injEq] at hl
        subst hl
        have hk : keepCandidate env defLoc l = true := (List.mem_filter.mp hm).2
        cases hc : env.compile l.uri with
        | error e => simp [keepCandidate, hc] at hk
        | ok ps =>
          obtain ⟨prog, scope⟩ := ps
          cases hg : env.gotoDefinition prog (kcl_pos l.uri l.range.start)
              scope with
          | none => simp [keepCandidate, hc, hg] at hk
          | some resp =>
            cases resp with
            | scalar realLoc =>
              have heq : realLoc = defLoc := by
                simpa [keepCandidate, hc, hg] using hk
              subst heq
              exact ⟨prog, scope, by simp [hc], by simp [hg]⟩
            | array ls => simp [keepCandidate, hc, hg] at hk
            | link => simp [keepCandidate, hc, hg] at hk

/-- Witness for C1: in the concrete environment the returned occurrence
compiles and resolves back to the queried definition. -/
theorem find_refs_soundness_witness :
    refEnvW.compile defLocW.uri = .ok ((), ()) ∧
    refEnvW.gotoDefinition () (kcl_pos defLocW.uri defLocW.range.start) () =
      some (.scalar defLocW) := by
  obtain ⟨prog, scope, h1, h2⟩ :=
    (find_refs_soundness refEnvW defLocW "a" "/root/main.k").2 [defLocW]
      (by rfl) defLocW (by simp)
  exact ⟨h1, h2⟩

/-- Counterexample to C9 as stated: when the logging collaborator itself
fails, a word-index build failure makes `find_refs` return `Err` — not
the claimed `Ok(None)` — because the logger's error propagates through
`?` (`find_refs.rs` line 79). -/
theorem find_refs_ok_none_counterexample :
    refEnvLogFail.getPkgRoot defLocW.uri = some "/r" ∧
    refEnvLogFail.buildWordIndex "/r" = .error () ∧
    (find_refs refEnvLogFail defLocW "a" "/root/main.k").result = .error () ∧
    (find_refs refEnvLogFail defLocW "a" "/root/main.k").result ≠
      .ok none := by
  refine ⟨rfl, rfl, rfl, fun h => ?_⟩
  rw [show (find_refs refEnvLogFail defLocW "a" "/root/main.k").result =
    .error () from rfl] at h
  exact Except.noConfusion h

/-- C9 amended: `find_refs` returns `Ok(None)` in exactly three no-result
cases — the definition file has no package root; the word-index build
fails and the logging call `logger("build word index failed")` succeeds
(if the logger itself fails, its error propagates through `?` and the
call returns `Err` instead); or the identifier has no word-index entry.
In the first and third cases nothing is logged and no candidate file is
compiled. -/
theorem find_refs_ok_none_iff {Prog Scope : Type} (env : RefEnv Prog Scope)
    (defLoc : Location) (name cursorPath : String) :
    ((find_refs env defLoc name cursorPath).result = .ok none ↔
      env.getPkgRoot defLoc.uri = none ∨
      (∃ root, env.getPkgRoot defLoc.uri = some root ∧
        env.buildWordIndex root = .error () ∧
        env.logger "build word index failed" = .ok ()) ∨
      (∃ root wi, env.getPkgRoot defLoc.uri = some root ∧
        env.buildWordIndex root = .ok wi ∧ wi name = none)) ∧
    (env.getPkgRoot defLoc.uri = none →
      find_refs env defLoc name cursorPath = ⟨[], [], .ok none⟩) ∧
    (∀ root wi, env.getPkgRoot defLoc.uri = some root →
      env.buildWordIndex root = .ok wi → wi name = none →
      find_refs env defLoc name cursorPath = ⟨[], [], .ok none⟩) ∧
    (∀ root, env.getPkgRoot defLoc.uri = some root →
      env.buildWordIndex root = .error () →
      env.logger "build word index failed" = .ok () →
      find_refs env defLoc name cursorPath =
        ⟨["build word index failed"], [], .ok none⟩) ∧
    (∀ root, env.getPkgRoot defLoc.uri = some root →
      env.buildWordIndex root = .error () →
      env.logger "build word index failed" = .error () →
      find_refs env defLoc name cursorPath =
        ⟨["build word index failed"], [], .error ()⟩) := by
  cases hr : env.getPkgRoot defLoc.uri with
  | none =>
    refine ⟨iff_of_true (by simp [find_refs, hr]) (Or.inl rfl),
      fun _ => by simp [find_refs, hr],
      fun root wi h1 _ _ => by simp at h1,
      fun root h1 _ _ => by simp at h1,
      fun root h1 _ _ => by simp at h1⟩
  | some root =>
    cases hb : env.buildWordIndex root with
    | error e =>
      cases e
      cases hlog : env.logger "build word index failed" with
      | ok u =>
        cases u
        refine ⟨iff_of_true (by simp [find_refs, hr, hb, hlog])
            (Or.inr (Or.inl ⟨root, rfl, hb, rfl⟩)),
          fun h => by simp at h,
          fun root' wi h1 h2 _ => ?_,
          fun root' h1 h2 h3 => ?_,
          fun root' h1 h2 h3 => ?_⟩
        · rw [Option.some.injEq] at h1
          subst h1
          rw [hb] at h2
          exact absurd h2 (by simp)
        · rw [Option.some.injEq] at h1
          subst h1
          simp [find_refs, hr, hb, hlog]
        · rw [Option.some.injEq] at h1
          subst h1
          exact absurd h3 (by simp)
      | error e2 =>
        cases e2
        refine ⟨iff_of_false (by simp [find_refs, hr, hb, hlog]) ?_,
          fun h => by simp at h,
          fun root' wi h1 h2 _ => ?_,
          fun root' h1 h2 h3 => ?_,
          fun root' h1 h2 h3 => ?_⟩
        · rintro (h | ⟨r, h1, h2, h3⟩ | ⟨r, w, h1, h2, h3⟩)
          · exact absurd h (by simp)
          · rw [Option.some.injEq] at h1
            subst h1
            exact absurd h3 (by simp)
          · rw [Option.some.injEq] at h1
            subst h1
            rw [hb] at h2
            exact absurd h2 (by simp)
        · rw [Option.some.injEq] at h1
          subst h1
          rw [hb] at h2
          exact absurd h2 (by simp)
        · rw [Option.some.injEq] at h1
          subst h1
          exact absurd h3 (by simp)
        · rw [Option.some.injEq] at h1
          subst h1
          simp [find_refs, hr, hb, hlog]
    | ok wi =>
      cases hw : wi name with
      | none =>
        refine ⟨iff_of_true (by simp [find_refs, hr, hb, hw])
            (Or.inr (Or.inr ⟨root, wi, rfl, hb, hw⟩)),
          fun h => by simp at h,
          fun root' wi2 h1 h2 h3 => ?_,
          fun root' h1 h2 h3 => ?_,
          fun root' h1 h2 h3 => ?_⟩
        · rw [Option.some.injEq] at h1
          subst h1
          rw [hb, Except.ok.injEq] at h2
          subst h2
          simp [find_refs, hr, hb, hw]
        · rw [Option.some.injEq] at h1
          subst h1
          rw [hb] at h2
          exact absurd h2 (by simp)
        · rw [Option.some.injEq] at h1
          subst h1
          rw [hb] at h2
          exact absurd h2 (by simp)
      | some cands =>
        refine ⟨iff_of_false (by simp [find_refs, hr, hb, hw]) ?_,
          fun h => by simp at h,
          fun root' wi2 h1 h2 h3 => ?_,
          fun root' h1 h2 h3 => ?_,
          fun root' h1 h2 h3 => ?_⟩
        · rintro (h | ⟨r, h1, h2, h3⟩ | ⟨r, w, h1, h2, h3⟩)
          · exact absurd h (by simp)
          · rw [Option.some.injEq] at h1
            subst h1
            rw [hb] at h2
            exact absurd h2 (by simp)
          · rw [Option.some.injEq] at h1
            subst h1
            rw [hb, Except.ok.injEq] at h2
            subst h2
            rw [hw] at h3
            exact absurd h3 (by simp)
        · rw [Option.some.injEq] at h1
          subst h1
          rw [hb, Except.ok.injEq] at h2
          subst h2
          rw [hw] at h3
          exact absurd h3 (by simp)
        · rw [Option.some.injEq] at h1
          subst h1
          rw [hb] at h2
          exact absurd h2 (by simp)
        · rw [Option.some.injEq] at h1
          subst h1
          rw [hb] at h2
          exact absurd h2 (by simp)

/-- Witness for C9: with no package root, the call returns `Ok(None)` with
nothing logged and nothing compiled. -/
theorem find_refs_ok_none_witness :
    find_refs refEnvNone defLocW "a" "/root/main.k" = ⟨[], [], .ok none⟩ :=
  (find_refs_ok_none_iff refEnvNone defLocW "a" "/root/main.k").2.1 rfl

/-- Witness for C4: file 1's compile failure leaves its old entry in
place, logs the failure, and the call still reports a change. -/
theorem process_vfs_changes_compile_failure_witness :
    (process_vfs_changes vfsEnvW stateVfsW).1.db 1 = stateVfsW.db 1 ∧
    ("bad.k compilation failed") ∈ (process_vfs_changes vfsEnvW stateVfsW).1.logs ∧
    (process_vfs_changes vfsEnvW stateVfsW).2 = true := by
  have h := process_vfs_changes_compile_failure vfsEnvW stateVfsW 1 "bad.k"
    (by simp [stateVfsW]) (by simp [vfsEnvW]) (by simp [vfsEnvW])
  exact ⟨h.1, h.2.1, h.2.2.1⟩

/-- Counterexample to C6: both failing candidates lie in the one failing
file `/r/bad.k`, yet the logging collaborator is invoked twice — once per
failing candidate, not once per failing file — and neither message names
the failing file: both carry the query's cursor path `/r/cursor.k`. -/
theorem find_refs_log_counterexample :
    (find_refs refEnvC6 defLocC6 "x" "/r/cursor.k").logs =
      ["/r/cursor.k compilation failed", "/r/cursor.k compilation failed"] ∧
    candC6a.uri = "/r/bad.k" ∧ candC6b.uri = "/r/bad.k" ∧
    candidateCompileFails refEnvC6 candC6a = true ∧
    candidateCompileFails refEnvC6 candC6b = true ∧
    (find_refs refEnvC6 defLocC6 "x" "/r/cursor.k").logs.length ≠ 1 ∧
    "/r/cursor.k compilation failed" ≠ "/r/bad.k compilation failed" := by
  refine ⟨rfl, rfl, rfl, rfl, rfl, by decide, by decide⟩

/-- C6 amended: during one find-references invocation the compile failure
is reported through the logging collaborator once per failing candidate —
a file containing several failing candidates is reported that many
times — and every message carries the query's cursor path (not the
candidate's file) followed by " compilation failed". -/
theorem find_refs_log_per_failing_candidate {Prog Scope : Type}
    (env : RefEnv Prog Scope) (defLoc : Location)
    (name cursorPath root : String) (wi : String → Option (List Location))
    (cands : List Location)
    (h1 : env.getPkgRoot defLoc.uri = some root)
    (h2 : env.buildWordIndex root = .ok wi)
    (h3 : wi name = some cands) :
    (find_refs env defLoc name cursorPath).logs.length =
      (cands.filter (fun l => candidateCompileFails env l)).length ∧
    ∀ m ∈ (find_refs env defLoc name cursorPath).logs,
      m = cursorPath ++ " compilation failed" := by
  constructor
  · simp [find_refs, h1, h2, h3]
  · intro m hm
    simp only [find_refs, h1, h2, h3, List.mem_map] at hm
    obtain ⟨l, _, hl⟩ := hm
    exact hl.symm

/-- Witness for C6's amended claim: in the counterexample environment the
log has exactly as many entries as there are failing candidates (two). -/
theorem find_refs_log_per_failing_candidate_witness :
    (find_refs refEnvC6 defLocC6 "x" "/r/cursor.k").logs.length = 2 := by
  have h := find_refs_log_per_failing_candidate refEnvC6 defLocC6 "x"
    "/r/cursor.k" "/r" (fun w => if w = "x" then some [candC6a, candC6b] else none)
    [candC6a, candC6b] rfl rfl (by simp)
  rw [h.1]
  rfl

/-- One incremental subtract/add step on a freshly rebuilt index equals a
full rebuild over the updated contents, provided the edited file belongs
to the root and the root's file list has no duplicates. -/
theorem build_word_index_root_update (frag : String → String → WordIndexDelta)
    (files : List String) (contents : String → String) (F newText : String)
    (hnd : files.Nodup) (hF : F ∈ files) :
    word_index_add
        (word_index_subtract (build_word_index_root frag files contents)
          (frag (contents F) F))
        (frag newText F) =
      build_word_index_root frag files
        (fun u => if u = F then newText else contents u) := by
  have hperm := List.perm_cons_erase hF
  have hmap : ∀ c : String → String,
      (files.map (fun u => frag (c u) u)).sum =
        frag (c F) F + ((files.erase F).map (fun u => frag (c u) u)).sum := by
    intro c
    have h := (hperm.map (fun u => frag (c u) u)).sum_eq
    simpa using h
  have herase : (files.erase F).map
        (fun u => frag ((fun v => if v = F then newText else contents v) u) u) =
      (files.erase F).map (fun u => frag (contents u) u) := by
    refine List.map_congr_left ?_
    intro a ha
    have hna : a ≠ F := (hnd.mem_erase_iff.mp ha).1
    simp [hna]
  unfold build_word_index_root word_index_add word_index_subtract
  rw [hmap contents, hmap (fun v => if v = F then newText else contents v),
    herase]
  simp [add_comm]

/-- C3: incremental-index equivalence — applying any sequence of edits to
files of an indexed root by subtracting the old fragment and adding the
new fragment yields exactly the index obtained by rebuilding from scratch
over the final contents of all the root's files. -/
theorem incremental_index_equivalence (frag : String → String → WordIndexDelta)
    (files : List String) (contents : String → String)
    (edits : List (String × String))
    (hnd : files.Nodup)
    (hmem : ∀ e ∈ edits, e.1 ∈ files) :
    (edits.foldl (incremental_edit frag)
        (build_word_index_root frag files contents, contents)).1 =
      build_word_index_root frag files (apply_edits contents edits) := by
  induction edits generalizing contents with
  | nil => rfl
  | cons e es ih =>
    have he : e.1 ∈ files := hmem e (List.mem_cons_self e es)
    rw [List.foldl_cons]
    have hstep : incremental_edit frag
        (build_word_index_root frag files contents, contents) e =
        (build_word_index_root frag files
            (fun u => if u = e.1 then e.2 else contents u),
          fun u => if u = e.1 then e.2 else contents u) := by
      unfold incremental_edit
      rw [build_word_index_root_update frag files contents e.1 e.2 hnd he]
    rw [hstep]
    exact ih (fun u => if u = e.1 then e.2 else contents u)
      (fun x hx => hmem x (List.mem_cons_of_mem e hx))

/-- Witness for C3: one edit to `a.k` in a two-file root, updated
incrementally, matches the from-scratch rebuild. -/
theorem incremental_index_equivalence_witness :
    (([("a.k", "w2")] : List (String × String)).foldl (incremental_edit fragW)
        (build_word_index_root fragW ["a.k", "b.k"] (fun _ => "w1"),
          fun _ => "w1")).1 =
      build_word_index_root fragW ["a.k", "b.k"]
        (apply_edits (fun _ => "w1") [("a.k", "w2")]) :=
  incremental_index_equivalence fragW ["a.k", "b.k"] (fun _ => "w1")
    [("a.k", "w2")] (by decide) (by decide)

/-- Renaming maps the locations of the old URI to the new URI and leaves
other locations alone; filtered range queries commute accordingly when the
new URI had no prior occurrences. -/
theorem filter_map_renameLoc (F F' : String) :
    ∀ ls : List Location, (∀ l ∈ ls, l.uri ≠ F') →
      ((ls.map (renameLoc F F')).filter
          (fun l => decide (l.uri = F'))).map Location.range =
        (ls.filter (fun l => decide (l.uri = F))).map Location.range := by
  intro ls
  induction ls with
  | nil => intro _; rfl
  | cons a t ih =>
    intro h
    have ha' : a.uri ≠ F' := h a (List.mem_cons_self a t)
    have ht : ∀ l ∈ t, l.uri ≠ F' := fun l hl => h l (List.mem_cons_of_mem a hl)
    by_cases ha : a.uri = F
    · simp [renameLoc, ha, ih ht]
    · simp [renameLoc, ha, ha', ih ht]

/-- C8: after a `DidRenameFiles` from `F` to `F'`, every occurrence
previously located in `F` appears with URI `F'` and its range preserved;
no occurrence with the old URI `F` remains; querying any identifier at
`F'` returns exactly the ranges previously found at `F` (when `F'` had no
prior occurrences); and `on_did_rename_files` applies this update to each
index whose workspace folder is a prefix of the old path. -/
theorem rename_preserves_lookups (wi : String → List Location)
    (m : List (String × (String → List Location)))
    (rootPath F F' : String) (hne : F ≠ F') :
    (∀ w l, l ∈ wi w → l.uri = F →
      ({ l with uri := F' } : Location) ∈ word_index_url_update wi F F' w) ∧
    (∀ w l, l ∈ word_index_url_update wi F F' w → l.uri ≠ F) ∧
    (∀ w, (∀ l ∈ wi w, l.uri ≠ F') →
      ((word_index_url_update wi F F' w).filter
          (fun l => decide (l.uri = F'))).map Location.range =
        ((wi w).filter (fun l => decide (l.uri = F))).map Location.range) ∧
    ((rootPath, wi) ∈ m → pathStartsWith rootPath F = true →
      (rootPath, word_index_url_update wi F F') ∈ on_did_rename_files m F F') := by
  refine ⟨?_, ?_, ?_, ?_⟩
  · intro w l hl huri
    exact List.mem_map.mpr ⟨l, hl, by simp [renameLoc, huri]⟩
  · intro w l hl
    obtain ⟨l0, hl0, hre⟩ := List.mem_map.mp hl
    subst hre
    by_cases h0 : l0.uri = F
    · have hrw : renameLoc F F' l0 = { l0 with uri := F' } := by
        simp [renameLoc, h0]
      rw [hrw]
      exact Ne.symm hne
    · have hrw : renameLoc F F' l0 = l0 := by simp [renameLoc, h0]
      rw [hrw]
      exact h0
  · intro w hfresh
    exact filter_map_renameLoc F F' (wi w) hfresh
  · intro hm hpre
    exact List.mem_map.mpr ⟨(rootPath, wi), hm, by simp [hpre]⟩

/-- Witness for C8: renaming `/r/f.k` to `/r/g.k` moves the occurrence of
`a` to the new URI, and `on_did_rename_files` updates the root's index. -/
theorem rename_preserves_lookups_witness :
    ({ locC8 with uri := "/r/g.k" } : Location) ∈
      word_index_url_update wiC8 "/r/f.k" "/r/g.k" "a" ∧
    ("/r", word_index_url_update wiC8 "/r/f.k" "/r/g.k") ∈
      on_did_rename_files [("/r", wiC8)] "/r/f.k" "/r/g.k" := by
  have h := rename_preserves_lookups wiC8 [("/r", wiC8)] "/r" "/r/f.k"
    "/r/g.k" (by decide)
  exact ⟨h.1 "a" locC8 (by simp [wiC8]) rfl, h.2.2.2 (by simp) (by decide)⟩

end KclLsp
